import Mathlib

/-!
Verification of the wallet-balance fetcher (`src/main.rs`).

The program loads a YAML configuration (`rpc_url`, `wallets`), issues one
JSON-RPC `getBalance` HTTP POST per wallet concurrently (`tokio::spawn` +
`futures::future::join_all`), converts each successful raw balance from
lamports to SOL by `f64` division, logs per-wallet failures, and prints a
report in the original wallet order.

The embedding below is shallow:
* network and filesystem effects are parameters (`HttpOutcome` per address,
  `FileOutcome` for the config file, a join-error oracle, and a completion
  schedule for the concurrent batch);
* `serde_json` / `serde_yaml` derive-based deserialization of the concrete
  structs is embedded as explicit recursive parsers over JSON / YAML trees,
  following serde's documented field semantics (required fields error when
  missing, `Option` fields treat absent/null as `None`, unknown fields are
  ignored);
* Rust `f64` arithmetic is embedded exactly: a finite nonnegative binary64
  value is a canonical pair (53-bit significand, binary exponent), and
  `u64 as f64` / `f64` division round to nearest, ties to even, at 53
  significant bits.  All inputs that arise stay far inside the normal range,
  so neither overflow, underflow, nor subnormals arise, and the unbounded
  exponent here agrees with IEEE binary64 on every value the program can
  produce;
* `anyhow` error values are embedded as an inductive of the four distinct
  error construction sites of the fetcher, together with `render`, the exact
  string `Display` shows for each (anyhow's `Display` prints the outermost
  context message only).
-/

namespace RustWallet

/-! ## Binary64 model -/

/-- A finite nonnegative binary64 value: `num * 2 ^ exp`.  Canonically either
`num = 0` (the value zero) or `2^52 ≤ num < 2^53` (a normal value). -/
structure F64 where
  num : ℕ
  exp : ℤ
deriving DecidableEq, Repr

/-- The exact rational value denoted by an `F64`. -/
def F64.toRat (x : F64) : ℚ :=
  if 0 ≤ x.exp then (x.num : ℚ) * 2 ^ x.exp.toNat else (x.num : ℚ) / 2 ^ (-x.exp).toNat

/-- Round `num / den` to the nearest integer, ties to even. -/
def roundNE (num den : ℕ) : ℕ :=
  let q := num / den
  let r := num % den
  if 2 * r < den then q
  else if den < 2 * r then q + 1
  else if q % 2 = 0 then q else q + 1

/-- Fuel-based `⌊log₂ n⌋` (0 for `n ≤ 1`); called with `fuel = n`, which always
suffices since the argument halves each step. -/
def log2fuel : ℕ → ℕ → ℕ
  | 0, _ => 0
  | fuel + 1, n => if n ≤ 1 then 0 else log2fuel fuel (n / 2) + 1

/-- Decide `2 ^ k * b ≤ a` for an integer (possibly negative) exponent `k`. -/
def pow2le (k : ℤ) (a b : ℕ) : Bool :=
  if 0 ≤ k then 2 ^ k.toNat * b ≤ a else b ≤ 2 ^ (-k).toNat * a

/-- `⌊log₂ (a / b)⌋` for `a, b ≥ 1`: the first guess from the integer logs of
`a` and `b` is right or one too high, and the `pow2le` test settles which. -/
def floorLog2Frac (a b : ℕ) : ℤ :=
  let k : ℤ := (log2fuel a a : ℤ) - (log2fuel b b : ℤ)
  if pow2le k a b then k else k - 1

/-- Round the exact fraction `a / b` (`b ≥ 1`) to binary64: scale into
`[2^52, 2^53)`, round to nearest with ties to even, and renormalize when
rounding carries up to `2^53`. -/
def roundFrac (a b : ℕ) : F64 :=
  if a = 0 then ⟨0, 0⟩ else
  let e : ℤ := floorLog2Frac a b - 52
  let n : ℕ := if 0 ≤ e then roundNE a (b * 2 ^ e.toNat) else roundNE (a * 2 ^ (-e).toNat) b
  if n = 2 ^ 53 then ⟨2 ^ 52, e + 1⟩ else ⟨n, e⟩

/-- Rust `v as f64` on a `u64` value: round `v` to binary64. -/
def u64ToF64 (v : ℕ) : F64 := roundFrac v 1

/-- Binary64 division: the quotient of two finite values `nx·2^ex / ny·2^ey`
equals `(nx/ny)·2^(ex-ey)`, and rounding commutes with the power-of-two
scaling, so it suffices to round `nx / ny` and shift the exponent. -/
def F64.div (x y : F64) : F64 :=
  let r := roundFrac x.num y.num
  ⟨r.num, r.exp + x.exp - y.exp⟩

/-- The `f64` literal `1_000_000_000.0` of `src/main.rs` line 122
(exactly representable). -/
def lamportsPerSol : F64 := roundFrac 1000000000 1

/-! ## Data model (`src/main.rs` lines 10-52) -/

/-- `struct Config { rpc_url: String, wallets: Vec<String> }`. -/
structure Config where
  rpc_url : String
  wallets : List String
deriving DecidableEq, Repr

/-- `struct BalanceContext { slot: u64 }`. -/
structure BalanceContext where
  slot : ℕ
deriving DecidableEq, Repr

/-- `struct Balance { value: u64, context: BalanceContext }`.  `value` is a
`u64`; the JSON parser below only constructs values `< 2^64`. -/
structure Balance where
  value : ℕ
  context : BalanceContext
deriving DecidableEq, Repr

/-- `struct RpcError { code: i64, message: String }`. -/
structure RpcError where
  code : ℤ
  message : String
deriving DecidableEq, Repr

/-- `struct RpcResponse { jsonrpc: String, result: Option<Balance>,
error: Option<RpcError>, id: u64 }`. -/
structure RpcResponse where
  jsonrpc : String
  result : Option Balance
  error : Option RpcError
  id : ℕ
deriving DecidableEq, Repr

/-- `struct WalletBalance { address: String, balance: f64 }`. -/
structure WalletBalance where
  address : String
  balance : F64
deriving DecidableEq, Repr

/-! ## JSON values and serde-derived deserialization -/

/-- A JSON document (numbers restricted to integers, which covers every field
the derived deserializers read). -/
inductive Json where
  | null
  | bool (b : Bool)
  | num (n : ℤ)
  | str (s : String)
  | arr (xs : List Json)
  | obj (kvs : List (String × Json))

/-- First value bound to a key in a JSON object. -/
def Json.lookup : List (String × Json) → String → Option Json
  | [], _ => none
  | (k, v) :: rest, key => if k = key then some v else Json.lookup rest key

/-- serde: deserialize a `String` field. -/
def parseJsonString : Json → Except String String
  | .str s => .ok s
  | _ => .error "invalid type: expected a string"

/-- serde: deserialize a `u64` field (an integer in `[0, 2^64)`). -/
def parseJsonU64 : Json → Except String ℕ
  | .num n => if 0 ≤ n ∧ n < 2 ^ 64 then .ok n.toNat else .error "invalid value: integer out of range of u64"
  | _ => .error "invalid type: expected u64"

/-- serde: deserialize an `i64` field (an integer in `[-2^63, 2^63)`). -/
def parseJsonI64 : Json → Except String ℤ
  | .num n => if -2 ^ 63 ≤ n ∧ n < 2 ^ 63 then .ok n else .error "invalid value: integer out of range of i64"
  | _ => .error "invalid type: expected i64"

/-- serde: a required struct field — missing key is an error. -/
def reqField (kvs : List (String × Json)) (key : String) (p : Json → Except String α) : Except String α :=
  match Json.lookup kvs key with
  | none => .error ("missing field " ++ key)
  | some v => p v

/-- serde: an `Option<T>` struct field — absent or `null` is `None`. -/
def optField (kvs : List (String × Json)) (key : String) (p : Json → Except String α) : Except String (Option α) :=
  match Json.lookup kvs key with
  | none => .ok none
  | some .null => .ok none
  | some v => (p v).map some

/-- Derived `Deserialize` for `BalanceContext`. -/
def parseBalanceContext : Json → Except String BalanceContext
  | .obj kvs =>
    match reqField kvs "slot" parseJsonU64 with
    | .error c => .error c
    | .ok slot => .ok ⟨slot⟩
  | _ => .error "invalid type: expected struct BalanceContext"

/-- Derived `Deserialize` for `Balance` (both fields required). -/
def parseBalance : Json → Except String Balance
  | .obj kvs =>
    match reqField kvs "value" parseJsonU64 with
    | .error c => .error c
    | .ok value =>
      match reqField kvs "context" parseBalanceContext with
      | .error c => .error c
      | .ok context => .ok ⟨value, context⟩
  | _ => .error "invalid type: expected struct Balance"

/-- Derived `Deserialize` for `RpcError`. -/
def parseRpcError : Json → Except String RpcError
  | .obj kvs =>
    match reqField kvs "code" parseJsonI64 with
    | .error c => .error c
    | .ok code =>
      match reqField kvs "message" parseJsonString with
      | .error c => .error c
      | .ok message => .ok ⟨code, message⟩
  | _ => .error "invalid type: expected struct RpcError"

/-- Derived `Deserialize` for `RpcResponse`: `jsonrpc` and `id` are required
(they carry no `Option` and no default, and `#[allow(dead_code)]` does not
change deserialization), while `result` and `error` are `Option` fields. -/
def parseRpcResponse : Json → Except String RpcResponse
  | .obj kvs =>
    match reqField kvs "jsonrpc" parseJsonString with
    | .error c => .error c
    | .ok jsonrpc =>
      match optField kvs "result" parseBalance with
      | .error c => .error c
      | .ok result =>
        match optField kvs "error" parseRpcError with
        | .error c => .error c
        | .ok error =>
          match reqField kvs "id" parseJsonU64 with
          | .error c => .error c
          | .ok id => .ok ⟨jsonrpc, result, error, id⟩
  | _ => .error "invalid type: expected struct RpcResponse"

/-! ## The balance fetcher (`get_single_balance`, lines 94-128) -/

/-- The JSON-RPC request body built at lines 98-103 (fixed id `1`). -/
def request_body (wallet : String) : Json :=
  .obj [("jsonrpc", .str "2.0"), ("id", .num 1), ("method", .str "getBalance"),
        ("params", .arr [.str wallet])]

/-- Outcome of one HTTP POST, the fetcher's only effect: the send itself can
fail, the body can fail to be JSON at all, or a JSON document comes back. -/
inductive HttpOutcome where
  | sendFail (cause : String)
  | badBody (cause : String)
  | body (j : Json)

/-- The four error construction sites of `get_single_balance`, with the data
each embeds in its message. -/
inductive FetchErr where
  | requestFailed (wallet : String) (cause : String)
  | responseParseFailed (wallet : String) (cause : String)
  | rpcRejected (wallet : String) (code : ℤ) (message : String)
  | emptyResult (wallet : String)
deriving DecidableEq, Repr

/-- The exact string `anyhow`'s `Display` shows for each fetch error (the
outermost context message; `bail!` at line 115 formats the whole message). -/
def FetchErr.render : FetchErr → String
  | .requestFailed w _ => "Failed to request balance for wallet: " ++ w
  | .responseParseFailed w _ => "Failed to parse response for wallet: " ++ w
  | .rpcRejected w c m => "RPC error for wallet " ++ w ++ ": " ++ m ++ " (code: " ++ toString c ++ ")"
  | .emptyResult w => "No balance result for wallet: " ++ w

/-- Lines 114-127: the envelope logic after a successful parse.  The `error`
field is examined first (line 114); only then is `result` unwrapped
(line 118); a present result is converted to SOL (line 122). -/
def handle_rpc_response (wallet : String) (r : RpcResponse) : Except FetchErr WalletBalance :=
  match r.error with
  | some e => .error (.rpcRejected wallet e.code e.message)
  | none =>
    match r.result with
    | none => .error (.emptyResult wallet)
    | some b => .ok ⟨wallet, F64.div (u64ToF64 b.value) lamportsPerSol⟩

/-- `get_single_balance` as a function of the wallet and its HTTP outcome.
The `rpc_url` only addresses the POST (lines 105-109) and does not influence
the result value.  A send failure is the line-109 context, a non-JSON or
shape-mismatched body is the line-112 context, and a parsed envelope is
handled by lines 114-127. -/
def get_single_balance (wallet : String) : HttpOutcome → Except FetchErr WalletBalance
  | .sendFail c => .error (.requestFailed wallet c)
  | .badBody c => .error (.responseParseFailed wallet c)
  | .body j =>
    match parseRpcResponse j with
    | .error c => .error (.responseParseFailed wallet c)
    | .ok r => handle_rpc_response wallet r

/-! ## The concurrent batch (`get_wallet_balances`, lines 130-160) -/

deriving instance DecidableEq for Except

/-- What `.await`ing one spawned `JoinHandle` yields: `Err(join_error)` when
the task itself failed to run to completion (the line-155 arm), or `Ok` of
the fetch result (the lines 153-154 arms). -/
inductive TaskResult where
  | joinError (cause : String)
  | completed (r : Except FetchErr WalletBalance)
deriving DecidableEq

/-- The eventual yield of the task spawned for the `i`-th wallet `w`
(lines 139-141): a join failure when the spawn infrastructure fails that
task, otherwise the fetch result for `w`. -/
def task_of (net : String → HttpOutcome) (jf : ℕ → Option String) (iw : ℕ × String) : TaskResult :=
  match jf iw.1 with
  | some c => .joinError c
  | none => .completed (get_single_balance iw.2 (net iw.2))

/-- Lines 132-144: the `for wallet in &config.wallets` loop pushes one
spawned task per wallet, in wallet order.  Each task's eventual yield is
determined by the per-address HTTP outcome `net` and (for the spawn
infrastructure itself) the per-index join-failure oracle `jf`. -/
def spawn_tasks (config : Config) (net : String → HttpOutcome) (jf : ℕ → Option String) : List TaskResult :=
  config.wallets.enum.map (task_of net jf)

/-- One step of `join_all`'s buffering: as each task completes, its yield is
stored at that task's slot (index in spawn order), never appended. -/
def fillSlots (outs : List α) : List ℕ → List (Option α) → List (Option α)
  | [], acc => acc
  | i :: rest, acc => fillSlots outs rest (acc.set i outs[i]?)

/-- Read the buffered slots back out; `none` means some task never completed,
which `join_all` never returns with. -/
def extractAll : List (Option α) → Option (List α)
  | [] => some []
  | none :: _ => none
  | some a :: rest => (extractAll rest).map (a :: ·)

/-- `futures::future::join_all(tasks).await` (line 147) under a completion
schedule `sched` (the indices of the tasks in the order the scheduler runs
them to completion): results land in their slots as they arrive and the
batch returns the slots in task order.  A schedule that is not a real
execution of all tasks yields `none`. -/
def join_all (outs : List α) (sched : List ℕ) : Option (List α) :=
  extractAll (fillSlots outs sched (List.replicate outs.length none))

/-- The exact warning line printed for a task, if any (lines 154-155);
`none` for a successful fetch. -/
def log_line : String → TaskResult → Option String
  | w, .completed (.error e) => some ("Error fetching balance for wallet " ++ w ++ ": " ++ e.render)
  | w, .joinError e => some ("Task error for wallet " ++ w ++ ": " ++ e)
  | _, .completed (.ok _) => none

/-- Lines 150-157: the result loop.  `results` has one entry per spawned
task, and entry `i` is matched against `config.wallets[i]`; successes are
pushed onto the balance list, failures of either kind print one warning line
naming the wallet.  The recursion walks the wallet list and the result list
in lockstep, which is exactly what `enumerate` plus `config.wallets[i]`
does, since both lists have one entry per wallet. -/
def process_results : List String → List TaskResult → List WalletBalance × List String
  | _, [] => ([], [])
  | [], _ :: _ => ([], [])
  | w :: ws, r :: rs =>
    let rest := process_results ws rs
    match r with
    | .completed (.ok b) => (b :: rest.1, rest.2)
    | .completed (.error e) => (rest.1, ("Error fetching balance for wallet " ++ w ++ ": " ++ e.render) :: rest.2)
    | .joinError e => (rest.1, ("Task error for wallet " ++ w ++ ": " ++ e) :: rest.2)

/-- `get_wallet_balances` (lines 131-160): spawn one task per wallet, join
them all under the completion schedule `sched`, then fold the results.  The
function's Rust value is `Ok(balances)` on every path; the warning lines
printed along the way are returned alongside.  `none` marks an impossible
schedule, not a program outcome. -/
def get_wallet_balances (config : Config) (net : String → HttpOutcome) (jf : ℕ → Option String)
    (sched : List ℕ) : Option (Except String (List WalletBalance) × List String) :=
  match join_all (spawn_tasks config net jf) sched with
  | none => none
  | some results =>
    let out := process_results config.wallets results
    some (.ok out.1, out.2)

/-- The balance a task contributes to the result list, if any (the
line-153 arm). -/
def task_success : TaskResult → Option WalletBalance
  | .completed (.ok b) => some b
  | _ => none

/-- Following the spec's words (§4.3, §9): the successful results collected
sequentially in original input address order, one wallet after the other,
with no concurrency at all.  The batch is proved to refine this. -/
def inOrderSuccesses (config : Config) (net : String → HttpOutcome) (jf : ℕ → Option String) :
    List WalletBalance :=
  config.wallets.enum.filterMap fun iw => task_success (task_of net jf iw)

/-- Following the spec's words (§4.3): the warning lines, one per failed
wallet, in original input address order. -/
def inOrderWarnings (config : Config) (net : String → HttpOutcome) (jf : ℕ → Option String) :
    List String :=
  config.wallets.enum.filterMap fun iw => log_line iw.2 (task_of net jf iw)

/-! ## YAML values and the config loader (`load_config`, lines 83-92) -/

/-- A YAML document, as typed by the YAML scalar rules before serde sees it. -/
inductive Yaml where
  | null
  | bool (b : Bool)
  | num (n : ℤ)
  | str (s : String)
  | seq (xs : List Yaml)
  | map (kvs : List (String × Yaml))

/-- First value bound to a key in a YAML mapping. -/
def Yaml.lookup : List (String × Yaml) → String → Option Yaml
  | [], _ => none
  | (k, v) :: rest, key => if k = key then some v else Yaml.lookup rest key

/-- serde: deserialize a YAML `String` field. -/
def parseYamlString : Yaml → Except String String
  | .str s => .ok s
  | _ => .error "invalid type: expected a string"

/-- serde: deserialize the elements of a YAML `Vec<String>` field. -/
def parseYamlStrings : List Yaml → Except String (List String)
  | [] => .ok []
  | y :: ys =>
    match parseYamlString y with
    | .error c => .error c
    | .ok s =>
      match parseYamlStrings ys with
      | .error c => .error c
      | .ok rest => .ok (s :: rest)

/-- serde: deserialize a YAML `Vec<String>` field. -/
def parseYamlStringList : Yaml → Except String (List String)
  | .seq xs => parseYamlStrings xs
  | _ => .error "invalid type: expected a sequence"

/-- Derived `Deserialize` for `Config`: a mapping with required fields
`rpc_url` (string) and `wallets` (sequence of strings); no further
validation of the field values takes place. -/
def parseConfigYaml : Yaml → Except String Config
  | .map kvs =>
    match Yaml.lookup kvs "rpc_url" with
    | none => .error "missing field rpc_url"
    | some u =>
      match parseYamlString u with
      | .error c => .error c
      | .ok url =>
        match Yaml.lookup kvs "wallets" with
        | none => .error "missing field wallets"
        | some v =>
          match parseYamlStringList v with
          | .error c => .error c
          | .ok ws => .ok ⟨url, ws⟩
  | _ => .error "invalid type: expected a mapping"

/-- What the filesystem yields for the config path: the open can fail
(line 85), or the file holds bytes that are (`some y`) or are not (`none`)
a YAML document. -/
inductive FileOutcome where
  | openFail (cause : String)
  | content (y : Option Yaml)

/-- The `Display` message of the line-86 context: `{:?}` on a `PathBuf`
renders the path quoted. -/
def openFailMsg (path : String) : String :=
  "Failed to open config file: " ++ "\"" ++ path ++ "\""

/-- `load_config` (lines 84-92): open the file (context names the path), then
parse it as a `Config` (context is the fixed string of line 89, which does
not mention the path).  `anyhow`'s `Display` shows the outermost context. -/
def load_config (path : String) (fs : FileOutcome) : Except String Config :=
  match fs with
  | .openFail _ => .error (openFailMsg path)
  | .content none => .error "Failed to parse config file"
  | .content (some y) =>
    match parseConfigYaml y with
    | .error _ => .error "Failed to parse config file"
    | .ok c => .ok c

/-! ## The program (`main`, lines 63-81) -/

/-- Stand-in for Rust's `{}` rendering of an `f64` in the line-77 report.
Rust prints the shortest decimal string that round-trips, which is an
injective function of the value; the digits themselves are not the subject
of any claim, so the model renders the exact value instead. -/
def fmtF64 (x : F64) : String := toString x.num ++ "e" ++ toString x.exp

/-- The report `main` prints at lines 75-78: the count line, then one line
per successful balance. -/
def report_lines (balances : List WalletBalance) : List String :=
  ("Balances for " ++ toString balances.length ++ " wallets:")
    :: balances.map fun b => b.address ++ ": " ++ fmtF64 b.balance ++ " SOL"

/-- Everything observable about one program run. -/
structure RunResult where
  /-- `true` exactly when `main` returned `Ok(())` (process exit 0). -/
  exitOk : Bool
  /-- stdout lines in order: warning lines from the result loop, then the
  report. -/
  output : List String
  /-- the diagnostic `anyhow` prints when `main` returns `Err` (exit 1). -/
  errMsg : Option String
  /-- the HTTP POSTs issued, one per spawned fetch (lines 105-108):
  `(url, body)`. -/
  requests : List (String × Json)

/-- `main` (lines 63-81): load the config — on failure the program aborts
with a non-zero exit before any task is spawned, so no HTTP request is ever
issued — then run the batch and print the report.  Each spawned fetch POSTs
exactly one request body to the configured URL. -/
def mainRun (path : String) (fs : FileOutcome) (net : String → HttpOutcome)
    (jf : ℕ → Option String) (sched : List ℕ) : Option RunResult :=
  match load_config path fs with
  | .error e => some ⟨false, [], some e, []⟩
  | .ok config =>
    match get_wallet_balances config net jf sched with
    | none => none
    | some (.error e, logs) => some ⟨false, logs, some e, config.wallets.map fun w => (config.rpc_url, request_body w)⟩
    | some (.ok balances, logs) =>
      some ⟨true, logs ++ report_lines balances, none,
            config.wallets.map fun w => (config.rpc_url, request_body w)⟩

/-! ## Lemmas about the concurrent batch -/

theorem fillSlots_length (outs : List α) (sched : List ℕ) (acc : List (Option α)) :
    (fillSlots outs sched acc).length = acc.length := by
  induction sched generalizing acc with
  | nil => rfl
  | cons i rest ih => simpa [fillSlots, List.length_set] using ih (acc.set i outs[i]?)

theorem fillSlots_getElem? (outs : List α) (sched : List ℕ) (acc : List (Option α)) (j : ℕ) :
    (fillSlots outs sched acc)[j]? =
      if j ∈ sched ∧ j < acc.length then some outs[j]? else acc[j]? := by
  induction sched generalizing acc with
  | nil => simp [fillSlots]
  | cons i rest ih =>
    rw [show fillSlots outs (i :: rest) acc = fillSlots outs rest (acc.set i outs[i]?) from rfl,
        ih (acc.set i outs[i]?)]
    by_cases hr : j ∈ rest ∧ j < acc.length
    · simp [List.length_set, hr.1, hr.2, List.mem_cons]
    · rw [List.length_set, if_neg hr, List.getElem?_set]
      by_cases hij : i = j
      · subst hij
        by_cases hlen : i < acc.length
        · simp [hlen, List.mem_cons]
        · have : acc[i]? = none := List.getElem?_eq_none (Nat.le_of_not_lt hlen)
          simp [hlen, this]
      · have : (j ∈ i :: rest ∧ j < acc.length) ↔ (j ∈ rest ∧ j < acc.length) := by
          constructor
          · rintro ⟨hm, hl⟩
            rcases List.mem_cons.mp hm with h' | h'
            · exact absurd h'.symm hij
            · exact ⟨h', hl⟩
          · rintro ⟨hm, hl⟩; exact ⟨List.mem_cons.mpr (Or.inr hm), hl⟩
        rw [if_neg hij, if_neg (fun hc => hr (this.mp hc))]

theorem extractAll_map_some (l : List α) : extractAll (l.map some) = some l := by
  induction l with
  | nil => rfl
  | cons a l ih => simp [extractAll, ih]

theorem fillSlots_perm_eq (outs : List α) (sched : List ℕ)
    (h : sched.Perm (List.range outs.length)) :
    fillSlots outs sched (List.replicate outs.length none) = outs.map some := by
  apply List.ext_getElem?
  intro j
  rw [fillSlots_getElem?]
  by_cases hj : j < outs.length
  · have hmem : j ∈ sched := h.mem_iff.mpr (List.mem_range.mpr hj)
    simp [hmem, hj, List.getElem?_eq_getElem hj]
  · have hmem : j ∉ sched := fun hc => hj (List.mem_range.mp (h.mem_iff.mp hc))
    have h1 : (List.replicate outs.length (none : Option α))[j]? = none :=
      List.getElem?_eq_none (by simpa using Nat.le_of_not_lt hj)
    have h2 : (outs.map some)[j]? = none :=
      List.getElem?_eq_none (by simpa using Nat.le_of_not_lt hj)
    simp [hmem, h1, h2]

/-- The order-restoration contract of `futures::future::join_all`: whatever
order the tasks complete in, the collected list is in task order. -/
theorem join_all_perm (outs : List α) (sched : List ℕ)
    (h : sched.Perm (List.range outs.length)) : join_all outs sched = some outs := by
  rw [join_all, fillSlots_perm_eq outs sched h, extractAll_map_some]

theorem process_results_enumFrom (net : String → HttpOutcome) (jf : ℕ → Option String)
    (ws : List String) (k : ℕ) :
    process_results ws ((ws.enumFrom k).map (task_of net jf)) =
      ((ws.enumFrom k).filterMap fun iw => task_success (task_of net jf iw),
       (ws.enumFrom k).filterMap fun iw => log_line iw.2 (task_of net jf iw)) := by
  induction ws generalizing k with
  | nil => rfl
  | cons w ws ih =>
    rw [List.enumFrom_cons, List.map_cons, List.filterMap_cons, List.filterMap_cons]
    cases htask : task_of net jf (k, w) with
    | joinError c =>
      simp [process_results, log_line, task_success, htask, ih (k + 1)]
    | completed r =>
      cases r with
      | ok b => simp [process_results, log_line, task_success, htask, ih (k + 1)]
      | error e => simp [process_results, log_line, task_success, htask, ih (k + 1)]

/-- Each task contributes exactly one thing: a balance or a warning line. -/
theorem process_results_lengths (ws : List String) (rs : List TaskResult)
    (h : ws.length = rs.length) :
    (process_results ws rs).1.length + (process_results ws rs).2.length = ws.length := by
  induction ws generalizing rs with
  | nil =>
    cases rs with
    | nil => rfl
    | cons r rs => simp at h
  | cons w ws ih =>
    cases rs with
    | nil => simp at h
    | cons r rs =>
      have hrec := ih rs (by simpa using h)
      cases r with
      | joinError c => simp [process_results]; omega
      | completed q =>
        cases q with
        | ok b => simp [process_results]; omega
        | error e => simp [process_results]; omega

/-- Any real completion schedule produces the sequential in-order outcome. -/
theorem get_wallet_balances_perm (cfg : Config) (net : String → HttpOutcome)
    (jf : ℕ → Option String) (sched : List ℕ)
    (h : sched.Perm (List.range cfg.wallets.length)) :
    get_wallet_balances cfg net jf sched =
      some (.ok (inOrderSuccesses cfg net jf), inOrderWarnings cfg net jf) := by
  have hlen : (spawn_tasks cfg net jf).length = cfg.wallets.length := by
    simp [spawn_tasks, List.enum_length]
  have hperm : sched.Perm (List.range (spawn_tasks cfg net jf).length) := by
    rw [hlen]; exact h
  rw [get_wallet_balances, join_all_perm _ _ hperm]
  dsimp only
  rw [show spawn_tasks cfg net jf = (cfg.wallets.enumFrom 0).map (task_of net jf) from rfl,
      process_results_enumFrom]
  rfl

/-! ## Claim theorems -/

/-- C1: for every configuration and per-address assignment of fetch
outcomes, `get_wallet_balances` returns the successful results in original
input address order (the sequential in-order collection), not completion
order, and two runs under any two completion schedules produce the same
value and the same final report. -/
theorem c1_results_in_input_order_and_deterministic
    (path : String) (fs : FileOutcome) (cfg : Config) (net : String → HttpOutcome)
    (jf : ℕ → Option String) (sched sched' : List ℕ)
    (hload : load_config path fs = .ok cfg)
    (h : sched.Perm (List.range cfg.wallets.length))
    (h' : sched'.Perm (List.range cfg.wallets.length)) :
    get_wallet_balances cfg net jf sched =
      some (.ok (inOrderSuccesses cfg net jf), inOrderWarnings cfg net jf) ∧
    get_wallet_balances cfg net jf sched = get_wallet_balances cfg net jf sched' ∧
    mainRun path fs net jf sched = mainRun path fs net jf sched' := by
  refine ⟨get_wallet_balances_perm cfg net jf sched h, ?_, ?_⟩
  · rw [get_wallet_balances_perm cfg net jf sched h,
        get_wallet_balances_perm cfg net jf sched' h']
  · simp only [mainRun, hload]
    rw [get_wallet_balances_perm cfg net jf sched h,
        get_wallet_balances_perm cfg net jf sched' h']

/-- Closed instance of C1: a two-wallet configuration, one wallet failing,
under the two opposite completion orders. -/
theorem c1_witness :
    load_config "config.yaml"
        (.content (some (.map [("rpc_url", .str "http://localhost"),
                               ("wallets", .seq [.str "w1", .str "w2"])]))) =
      .ok ⟨"http://localhost", ["w1", "w2"]⟩ ∧
    [1, 0].Perm (List.range (Config.mk "http://localhost" ["w1", "w2"]).wallets.length) ∧
    [0, 1].Perm (List.range (Config.mk "http://localhost" ["w1", "w2"]).wallets.length) ∧
    (get_wallet_balances ⟨"http://localhost", ["w1", "w2"]⟩ (fun _ => .sendFail "io") (fun _ => none) [1, 0] =
        some (.ok (inOrderSuccesses ⟨"http://localhost", ["w1", "w2"]⟩ (fun _ => .sendFail "io") (fun _ => none)),
              inOrderWarnings ⟨"http://localhost", ["w1", "w2"]⟩ (fun _ => .sendFail "io") (fun _ => none)) ∧
      get_wallet_balances ⟨"http://localhost", ["w1", "w2"]⟩ (fun _ => .sendFail "io") (fun _ => none) [1, 0] =
        get_wallet_balances ⟨"http://localhost", ["w1", "w2"]⟩ (fun _ => .sendFail "io") (fun _ => none) [0, 1] ∧
      mainRun "config.yaml"
          (.content (some (.map [("rpc_url", .str "http://localhost"),
                                 ("wallets", .seq [.str "w1", .str "w2"])])))
          (fun _ => .sendFail "io") (fun _ => none) [1, 0] =
        mainRun "config.yaml"
          (.content (some (.map [("rpc_url", .str "http://localhost"),
                                 ("wallets", .seq [.str "w1", .str "w2"])])))
          (fun _ => .sendFail "io") (fun _ => none) [0, 1]) :=
  ⟨rfl, by decide, by decide,
   c1_results_in_input_order_and_deterministic "config.yaml" _ _ _ _ [1, 0] [0, 1]
     rfl (by decide) (by decide)⟩

/-- C3: a successful envelope reports `value as f64 / 1e9`; on the four
raw values `0`, `1`, `10^9` and `2^64 - 1` the binary64 result is exactly
`0`, `4835703278458517 / 2^82` (the double nearest `10^-9`), exactly `1`,
and `4835703278458517 / 2^18 ≈ 18446744073.70955`, each within the stated
distance of the exact quotient. -/
theorem c3_lamports_conversion :
    (∀ (w js : String) (v idv : ℕ) (ctx : BalanceContext),
      handle_rpc_response w ⟨js, some ⟨v, ctx⟩, none, idv⟩ =
        .ok ⟨w, F64.div (u64ToF64 v) lamportsPerSol⟩) ∧
    (F64.div (u64ToF64 0) lamportsPerSol).toRat = 0 ∧
    (F64.div (u64ToF64 1) lamportsPerSol).toRat = 4835703278458517 / 2 ^ 82 ∧
    |(F64.div (u64ToF64 1) lamportsPerSol).toRat - 1 / 1000000000| < 1 / 10 ^ 24 ∧
    (F64.div (u64ToF64 1000000000) lamportsPerSol).toRat = 1 ∧
    (F64.div (u64ToF64 18446744073709551615) lamportsPerSol).toRat = 4835703278458517 / 2 ^ 18 ∧
    |(F64.div (u64ToF64 18446744073709551615) lamportsPerSol).toRat -
        18446744073709551615 / 1000000000| < 1 / 10 ^ 5 := by
  have h0 : F64.div (u64ToF64 0) lamportsPerSol = ⟨0, 23⟩ := by decide
  have h1 : F64.div (u64ToF64 1) lamportsPerSol = ⟨4835703278458517, -82⟩ := by decide
  have h9 : F64.div (u64ToF64 1000000000) lamportsPerSol = ⟨4503599627370496, -52⟩ := by decide
  have hm : F64.div (u64ToF64 18446744073709551615) lamportsPerSol =
      ⟨4835703278458517, -18⟩ := by decide
  have t82 : Int.toNat 82 = 82 := rfl
  have t52 : Int.toNat 52 = 52 := rfl
  have t18 : Int.toNat 18 = 18 := rfl
  have v82 : F64.toRat ⟨4835703278458517, -82⟩ = 4835703278458517 / 2 ^ 82 := by
    norm_num [F64.toRat, t82]
  have v18 : F64.toRat ⟨4835703278458517, -18⟩ = 4835703278458517 / 2 ^ 18 := by
    norm_num [F64.toRat, t18]
  refine ⟨fun w js v idv ctx => rfl, ?_, ?_, ?_, ?_, ?_, ?_⟩
  · rw [h0]; norm_num [F64.toRat]
  · rw [h1, v82]
  · rw [h1, v82, abs_sub_lt_iff]; norm_num
  · rw [h9]; norm_num [F64.toRat, t52]
  · rw [hm, v18]
  · rw [hm, v18, abs_sub_lt_iff]; norm_num

/-- C4: on a parsed envelope, a populated `error` field always yields the
RPC-rejection failure carrying the remote code and message (both of which
appear verbatim in the displayed text); absence of both `result` and
`error` yields the empty-result failure naming the address; success happens
exactly on a populated `result` with no `error`. -/
theorem c4_envelope_error_classification (w : String) (r : RpcResponse) :
    (∀ e, r.error = some e →
      handle_rpc_response w r = .error (.rpcRejected w e.code e.message)) ∧
    (r.error = none → r.result = none →
      handle_rpc_response w r = .error (.emptyResult w)) ∧
    (∀ b, r.error = none → r.result = some b →
      handle_rpc_response w r = .ok ⟨w, F64.div (u64ToF64 b.value) lamportsPerSol⟩) ∧
    (∀ c m, (FetchErr.rpcRejected w c m).render =
        "RPC error for wallet " ++ w ++ ": " ++ m ++ " (code: " ++ toString c ++ ")" ∧
      m.data <:+: (FetchErr.rpcRejected w c m).render.data ∧
      (toString c).data <:+: (FetchErr.rpcRejected w c m).render.data) ∧
    ((FetchErr.emptyResult w).render = "No balance result for wallet: " ++ w ∧
      w.data <:+: (FetchErr.emptyResult w).render.data) := by
  refine ⟨fun e he => by simp [handle_rpc_response, he],
          fun he hr => by simp [handle_rpc_response, he, hr],
          fun b he hr => by simp [handle_rpc_response, he, hr],
          fun c m => ⟨rfl, ?_, ?_⟩, rfl, ?_⟩
  · exact ⟨("RPC error for wallet " ++ w ++ ": ").data,
           (" (code: " ++ toString c ++ ")").data,
           by simp [FetchErr.render, String.data_append]⟩
  · exact ⟨("RPC error for wallet " ++ w ++ ": " ++ m ++ " (code: ").data, ")".data,
           by simp [FetchErr.render, String.data_append]⟩
  · exact ⟨"No balance result for wallet: ".data, [],
           by simp [FetchErr.render, String.data_append]⟩

/-- Closed instance of C4: a populated error field is rejected with the
remote code and message. -/
theorem c4_witness :
    (RpcResponse.mk "2.0" none (some ⟨-32601, "not found"⟩) 1).error =
      some ⟨-32601, "not found"⟩ ∧
    handle_rpc_response "w1" ⟨"2.0", none, some ⟨-32601, "not found"⟩, 1⟩ =
      .error (.rpcRejected "w1" (-32601) "not found") :=
  ⟨rfl, (c4_envelope_error_classification "w1" ⟨"2.0", none, some ⟨-32601, "not found"⟩, 1⟩).1
    ⟨-32601, "not found"⟩ rfl⟩

/-- C7 fails on the code: an envelope with both `result` and `error`
populated is not rejected as invalid — it is resolved by a precedence rule.
The code handles it identically to the same envelope with `result` absent,
producing the ordinary RPC-rejection error. -/
theorem c7_counterexample :
    handle_rpc_response "w1" ⟨"2.0", some ⟨5, ⟨1⟩⟩, some ⟨-1, "boom"⟩, 1⟩ =
      .error (.rpcRejected "w1" (-1) "boom") ∧
    handle_rpc_response "w1" ⟨"2.0", some ⟨5, ⟨1⟩⟩, some ⟨-1, "boom"⟩, 1⟩ =
      handle_rpc_response "w1" ⟨"2.0", none, some ⟨-1, "boom"⟩, 1⟩ :=
  ⟨rfl, rfl⟩

/-- C7 amended: the envelope is not validated for exclusivity.  A populated
`error` takes precedence regardless of `result`; both fields absent yields
the empty-result failure; success forces `result` populated and `error`
absent. -/
theorem c7_error_precedence_amended (w : String) (r : RpcResponse) :
    (∀ (js : String) (res : Option Balance) (e : RpcError) (idv : ℕ),
      handle_rpc_response w ⟨js, res, some e, idv⟩ =
        .error (.rpcRejected w e.code e.message)) ∧
    (r.error = none → r.result = none →
      handle_rpc_response w r = .error (.emptyResult w)) ∧
    (∀ out, handle_rpc_response w r = .ok out → r.error = none ∧ r.result.isSome) := by
  refine ⟨fun js res e idv => rfl,
          fun h1 h2 => by simp [handle_rpc_response, h1, h2], ?_⟩
  intro out hout
  cases he : r.error with
  | some e => simp [handle_rpc_response, he] at hout
  | none =>
    cases hr : r.result with
    | none => simp [handle_rpc_response, he, hr] at hout
    | some b => exact ⟨rfl, rfl⟩

/-- Closed instance of the amended C7: both fields absent is rejected with
the empty-result failure. -/
theorem c7_witness :
    (RpcResponse.mk "2.0" none none 1).error = none ∧
    (RpcResponse.mk "2.0" none none 1).result = none ∧
    handle_rpc_response "w1" ⟨"2.0", none, none, 1⟩ = .error (.emptyResult "w1") :=
  ⟨rfl, rfl, (c7_error_precedence_amended "w1" ⟨"2.0", none, none, 1⟩).2.1 rfl rfl⟩

/-- C9 fails on the code: `load_config` accepts a configuration whose
endpoint URL is the empty string — no non-emptiness invariant is
established at config load. -/
theorem c9_counterexample :
    load_config "config.yaml"
        (.content (some (.map [("rpc_url", .str ""), ("wallets", .seq [.str "w1"])]))) =
      .ok ⟨"", ["w1"]⟩ ∧
    (Config.mk "" ["w1"]).rpc_url = "" :=
  ⟨rfl, rfl⟩

theorem parseYamlStrings_map_str (ws : List String) :
    parseYamlStrings (ws.map .str) = .ok ws := by
  induction ws with
  | nil => rfl
  | cons w ws ih => simp [parseYamlStrings, parseYamlString, ih]

/-- C9 amended: `load_config` validates nothing beyond the field shapes —
every string endpoint (the empty string included) and every wallet list
(the empty list included) is accepted verbatim. -/
theorem c9_no_endpoint_validation_amended (path url : String) (ws : List String) :
    load_config path
        (.content (some (.map [("rpc_url", .str url), ("wallets", .seq (ws.map .str))]))) =
      .ok ⟨url, ws⟩ := by
  simp [load_config, parseConfigYaml, Yaml.lookup, parseYamlString, parseYamlStringList,
        parseYamlStrings_map_str]

theorem parseRpcResponse_error_of_missing (kvs : List (String × Json))
    (h : Json.lookup kvs "jsonrpc" = none ∨ Json.lookup kvs "id" = none) :
    ∃ c, parseRpcResponse (.obj kvs) = .error c := by
  rcases h with h | h
  · refine ⟨"missing field " ++ "jsonrpc", ?_⟩
    simp [parseRpcResponse, reqField, h]
  · cases h1 : reqField kvs "jsonrpc" parseJsonString with
    | error c => exact ⟨c, by simp [parseRpcResponse, h1]⟩
    | ok s =>
      cases h2 : optField kvs "result" parseBalance with
      | error c => exact ⟨c, by simp [parseRpcResponse, h1, h2]⟩
      | ok res =>
        cases h3 : optField kvs "error" parseRpcError with
        | error c => exact ⟨c, by simp [parseRpcResponse, h1, h2, h3]⟩
        | ok err =>
          have h4 : reqField kvs "id" parseJsonU64 = .error "missing field id" := by
            simp [reqField, h]
          exact ⟨"missing field id", by simp [parseRpcResponse, h1, h2, h3, h4]⟩

/-- C10: a JSON body missing the top-level `jsonrpc` or `id` field fails
deserialization into `RpcResponse` — even when it carries a well-formed
`result` — so the address fails with the transport-level parse error, a
classification distinct from the empty-result and RPC-rejection errors. -/
theorem c10_missing_envelope_fields (w : String) (kvs : List (String × Json))
    (h : Json.lookup kvs "jsonrpc" = none ∨ Json.lookup kvs "id" = none) :
    (∃ c, get_single_balance w (.body (.obj kvs)) = .error (.responseParseFailed w c)) ∧
    (∀ c, FetchErr.responseParseFailed w c ≠ .emptyResult w) ∧
    (∀ c cc m, FetchErr.responseParseFailed w c ≠ .rpcRejected w cc m) := by
  obtain ⟨c, hc⟩ := parseRpcResponse_error_of_missing kvs h
  refine ⟨⟨c, by simp [get_single_balance, hc]⟩, ?_, ?_⟩
  · intro c' h'
    simp at h'
  · intro c' cc m h'
    simp at h'

/-- Closed instance of C10: a body with a well-formed `result` but no `id`
field is classified as a parse failure. -/
theorem c10_witness :
    (Json.lookup [("jsonrpc", Json.str "2.0"),
        ("result", Json.obj [("value", Json.num 5),
                             ("context", Json.obj [("slot", Json.num 1)])])] "jsonrpc" = none ∨
     Json.lookup [("jsonrpc", Json.str "2.0"),
        ("result", Json.obj [("value", Json.num 5),
                             ("context", Json.obj [("slot", Json.num 1)])])] "id" = none) ∧
    (∃ c, get_single_balance "w1"
        (.body (.obj [("jsonrpc", Json.str "2.0"),
                      ("result", Json.obj [("value", Json.num 5),
                                           ("context", Json.obj [("slot", Json.num 1)])])])) =
      .error (.responseParseFailed "w1" c)) :=
  ⟨Or.inr rfl,
   (c10_missing_envelope_fields "w1" [("jsonrpc", Json.str "2.0"),
      ("result", Json.obj [("value", Json.num 5),
                           ("context", Json.obj [("slot", Json.num 1)])])] (Or.inr rfl)).1⟩

/-- C5: the spawn loop launches exactly one fetch task per configured
address — duplicates included, every `N` included — and the `i`-th task is
the task for the `i`-th wallet; with zero wallets the program prints exactly
the line `Balances for 0 wallets:` and nothing else. -/
theorem c5_one_task_per_address (path : String) (fs : FileOutcome) (cfg : Config)
    (net : String → HttpOutcome) (jf : ℕ → Option String)
    (hload : load_config path fs = .ok cfg) :
    (spawn_tasks cfg net jf).length = cfg.wallets.length ∧
    (∀ i w, cfg.wallets[i]? = some w →
      (spawn_tasks cfg net jf)[i]? = some (task_of net jf (i, w))) ∧
    (cfg.wallets = [] →
      mainRun path fs net jf [] = some ⟨true, ["Balances for 0 wallets:"], none, []⟩) := by
  refine ⟨by simp [spawn_tasks, List.enum_length], ?_, ?_⟩
  · intro i w hw
    rw [spawn_tasks, List.getElem?_map, List.getElem?_enum, hw]
    rfl
  · intro hw
    simp only [mainRun, hload, get_wallet_balances, spawn_tasks, hw, join_all,
               List.enum_nil, List.map_nil, List.length_nil, List.replicate_zero,
               fillSlots, extractAll, process_results, report_lines]
    rfl

/-- Closed instance of C5: a duplicate two-address configuration spawns two
tasks, and an empty configuration prints only the zero-wallet count line. -/
theorem c5_witness :
    load_config "config.yaml"
        (.content (some (.map [("rpc_url", .str "u"), ("wallets", .seq [])]))) =
      .ok ⟨"u", []⟩ ∧
    (Config.mk "u" []).wallets = [] ∧
    mainRun "config.yaml" (.content (some (.map [("rpc_url", .str "u"), ("wallets", .seq [])])))
        (fun _ => .sendFail "io") (fun _ => none) [] =
      some ⟨true, ["Balances for 0 wallets:"], none, []⟩ ∧
    load_config "config.yaml"
        (.content (some (.map [("rpc_url", .str "u"),
                               ("wallets", .seq [.str "a", .str "a"])]))) =
      .ok ⟨"u", ["a", "a"]⟩ ∧
    (spawn_tasks ⟨"u", ["a", "a"]⟩ (fun _ => .sendFail "io") (fun _ => none)).length =
      (Config.mk "u" ["a", "a"]).wallets.length :=
  ⟨rfl, rfl,
   (c5_one_task_per_address "config.yaml"
      (.content (some (.map [("rpc_url", .str "u"), ("wallets", .seq [])])))
      ⟨"u", []⟩ (fun _ => .sendFail "io") (fun _ => none) rfl).2.2 rfl,
   rfl,
   (c5_one_task_per_address "config.yaml"
      (.content (some (.map [("rpc_url", .str "u"),
                             ("wallets", .seq [.str "a", .str "a"])])))
      ⟨"u", ["a", "a"]⟩ (fun _ => .sendFail "io") (fun _ => none) rfl).1⟩

theorem parseYamlStringList_error_of_not_seq (v : Yaml) (hv : ∀ xs, v ≠ .seq xs) :
    ∃ c, parseYamlStringList v = .error c := by
  cases v with
  | seq xs => exact absurd rfl (hv xs)
  | null => exact ⟨_, rfl⟩
  | bool b => exact ⟨_, rfl⟩
  | num n => exact ⟨_, rfl⟩
  | str s => exact ⟨_, rfl⟩
  | map kvs => exact ⟨_, rfl⟩

theorem parseConfigYaml_error_of_bad_wallets (kvs : List (String × Yaml))
    (h : Yaml.lookup kvs "wallets" = none ∨
      ∃ v, Yaml.lookup kvs "wallets" = some v ∧ ∀ xs, v ≠ .seq xs) :
    ∃ c, parseConfigYaml (.map kvs) = .error c := by
  cases hu : Yaml.lookup kvs "rpc_url" with
  | none => exact ⟨"missing field rpc_url", by simp [parseConfigYaml, hu]⟩
  | some u =>
    cases hpu : parseYamlString u with
    | error c => exact ⟨c, by simp [parseConfigYaml, hu, hpu]⟩
    | ok url =>
      rcases h with h | ⟨v, hv, hnseq⟩
      · exact ⟨"missing field wallets", by simp [parseConfigYaml, hu, hpu, h]⟩
      · obtain ⟨c, hc⟩ := parseYamlStringList_error_of_not_seq v hnseq
        exact ⟨c, by simp [parseConfigYaml, hu, hpu, hv, hc]⟩

theorem load_config_parse_error (path : String) (y : Yaml)
    (h : ∃ c, parseConfigYaml y = .error c) :
    load_config path (.content (some y)) = .error "Failed to parse config file" := by
  obtain ⟨c, hc⟩ := h
  simp [load_config, hc]

/-- C6: a configuration document whose `wallets` field is missing or has a
non-sequence type fails `load_config` with the parse-error message, and the
program then aborts with a non-zero exit having issued zero HTTP
requests. -/
theorem c6_config_parse_failure_aborts (path : String) (kvs : List (String × Yaml))
    (net : String → HttpOutcome) (jf : ℕ → Option String) (sched : List ℕ)
    (h : Yaml.lookup kvs "wallets" = none ∨
      ∃ v, Yaml.lookup kvs "wallets" = some v ∧ ∀ xs, v ≠ .seq xs) :
    load_config path (.content (some (.map kvs))) = .error "Failed to parse config file" ∧
    mainRun path (.content (some (.map kvs))) net jf sched =
      some ⟨false, [], some "Failed to parse config file", []⟩ := by
  have hl := load_config_parse_error path _ (parseConfigYaml_error_of_bad_wallets kvs h)
  exact ⟨hl, by simp [mainRun, hl]⟩

/-- Closed instance of C6: a document with only `rpc_url` aborts with the
parse error and no HTTP requests. -/
theorem c6_witness :
    (Yaml.lookup [("rpc_url", Yaml.str "u")] "wallets" = none ∨
      ∃ v, Yaml.lookup [("rpc_url", Yaml.str "u")] "wallets" = some v ∧
        ∀ xs, v ≠ .seq xs) ∧
    (load_config "config.yaml" (.content (some (.map [("rpc_url", Yaml.str "u")]))) =
        .error "Failed to parse config file" ∧
      mainRun "config.yaml" (.content (some (.map [("rpc_url", Yaml.str "u")])))
          (fun _ => .sendFail "io") (fun _ => none) [] =
        some ⟨false, [], some "Failed to parse config file", []⟩) :=
  ⟨Or.inl rfl,
   c6_config_parse_failure_aborts "config.yaml" [("rpc_url", Yaml.str "u")]
     (fun _ => .sendFail "io") (fun _ => none) [] (Or.inl rfl)⟩

/-- C8 fails on the code: a malformed-content configuration error aborts
with the fixed message `Failed to parse config file`, which does not name
the configuration file path. -/
theorem c8_counterexample :
    load_config "config.yaml" (.content none) = .error "Failed to parse config file" ∧
    ¬ ("config.yaml".data <:+: "Failed to parse config file".data) :=
  ⟨rfl, by decide⟩

/-- C8 amended: every configuration error aborts the program with a
non-zero exit, a contextual message, and zero HTTP requests; the message
names the file path when the file cannot be opened, while malformed content
produces the fixed path-less parse message. -/
theorem c8_config_error_abort_amended (path : String) (fs : FileOutcome) (e : String)
    (net : String → HttpOutcome) (jf : ℕ → Option String) (sched : List ℕ)
    (h : load_config path fs = .error e) :
    mainRun path fs net jf sched = some ⟨false, [], some e, []⟩ ∧
    (∀ c, fs = .openFail c → e = openFailMsg path ∧ path.data <:+: e.data) ∧
    (∀ oy, fs = .content oy → e = "Failed to parse config file") := by
  refine ⟨by simp [mainRun, h], ?_, ?_⟩
  · rintro c rfl
    simp only [load_config, Except.error.injEq] at h
    refine ⟨h.symm, ?_⟩
    rw [← h]
    exact ⟨("Failed to open config file: " ++ "\"").data, "\"".data,
           by simp [openFailMsg, String.data_append]⟩
  · rintro oy rfl
    cases oy with
    | none =>
      simp only [load_config, Except.error.injEq] at h
      exact h.symm
    | some y =>
      cases hp : parseConfigYaml y with
      | error c =>
        simp only [load_config, hp, Except.error.injEq] at h
        exact h.symm
      | ok c => simp [load_config, hp] at h

/-- Closed instance of the amended C8: an unopenable file aborts with a
message naming the path, issuing no HTTP request. -/
theorem c8_witness :
    load_config "config.yaml" (.openFail "io") = .error (openFailMsg "config.yaml") ∧
    (mainRun "config.yaml" (.openFail "io") (fun _ => .sendFail "io") (fun _ => none) [] =
        some ⟨false, [], some (openFailMsg "config.yaml"), []⟩ ∧
      openFailMsg "config.yaml" = openFailMsg "config.yaml" ∧
      "config.yaml".data <:+: (openFailMsg "config.yaml").data) :=
  ⟨rfl,
   (c8_config_error_abort_amended "config.yaml" (.openFail "io") (openFailMsg "config.yaml")
      (fun _ => .sendFail "io") (fun _ => none) [] rfl).1,
   ((c8_config_error_abort_amended "config.yaml" (.openFail "io") (openFailMsg "config.yaml")
      (fun _ => .sendFail "io") (fun _ => none) [] rfl).2.1 "io" rfl).1,
   ((c8_config_error_abort_amended "config.yaml" (.openFail "io") (openFailMsg "config.yaml")
      (fun _ => .sendFail "io") (fun _ => none) [] rfl).2.1 "io" rfl).2⟩

theorem log_line_eq_none (w : String) (t : TaskResult) :
    log_line w t = none ↔ ∃ b, task_success t = some b := by
  cases t with
  | joinError c => simp [log_line, task_success]
  | completed r =>
    cases r with
    | ok b => simp [log_line, task_success]
    | error e => simp [log_line, task_success]

theorem log_line_of_fail (w : String) (t : TaskResult) (h : task_success t = none) :
    ∃ s, log_line w t = some s ∧ w.data <:+: s.data := by
  cases t with
  | joinError c =>
    refine ⟨"Task error for wallet " ++ w ++ ": " ++ c, rfl,
            "Task error for wallet ".data, (": " ++ c).data, ?_⟩
    simp [String.data_append]
  | completed r =>
    cases r with
    | ok b => simp [task_success] at h
    | error e =>
      refine ⟨"Error fetching balance for wallet " ++ w ++ ": " ++ e.render, rfl,
              "Error fetching balance for wallet ".data, (": " ++ e.render).data, ?_⟩
      simp [String.data_append]

theorem filterMap_enumFrom_single {β : Type} (g : ℕ × String → Option β) (i : ℕ) (s : β)
    (ws : List String) : ∀ k : ℕ,
    (∀ p ∈ ws.enumFrom k, p.1 ≠ i → g p = none) →
    (∀ p ∈ ws.enumFrom k, p.1 = i → g p = some s) →
    i ∈ (ws.enumFrom k).map Prod.fst →
    (ws.enumFrom k).filterMap g = [s] := by
  induction ws with
  | nil =>
    intro k _ _ hmem
    simp at hmem
  | cons w ws ih =>
    intro k h1 h2 hmem
    rw [List.enumFrom_cons] at h1 h2 hmem ⊢
    by_cases hk : k = i
    · have hg : g (k, w) = some s := h2 (k, w) (List.mem_cons_self _ _) hk
      have hrest : (ws.enumFrom (k + 1)).filterMap g = [] := by
        refine List.filterMap_eq_nil_iff.mpr fun p hp => ?_
        refine h1 p (List.mem_cons_of_mem _ hp) ?_
        have := List.le_fst_of_mem_enumFrom hp
        omega
      simp [List.filterMap_cons, hg, hrest]
    · have hg : g (k, w) = none := h1 (k, w) (List.mem_cons_self _ _) hk
      have hmem' : i ∈ (ws.enumFrom (k + 1)).map Prod.fst := by
        simp only [List.map_cons, List.mem_cons] at hmem
        rcases hmem with h' | h'
        · exact absurd h'.symm hk
        · exact h'
      have hrec := ih (k + 1) (fun p hp hne => h1 p (List.mem_cons_of_mem _ hp) hne)
        (fun p hp he => h2 p (List.mem_cons_of_mem _ hp) he) hmem'
      simp [List.filterMap_cons, hg, hrec]

/-- C2: when exactly one wallet's task fails (fetch-level or task-level)
and every other task succeeds, the batch still returns `Ok` with every
successful wallet's balance present in input order, the failing wallet is
excluded (the list is one short of the wallet count), and exactly one
warning line is printed, containing the failing address; moreover the batch
returns `Ok` for every outcome assignment whatsoever. -/
theorem c2_partial_failure_isolation (cfg : Config) (net : String → HttpOutcome)
    (jf : ℕ → Option String) (sched : List ℕ) (i : ℕ)
    (hsched : sched.Perm (List.range cfg.wallets.length))
    (hi : i < cfg.wallets.length)
    (hfail : task_success (task_of net jf (i, cfg.wallets[i])) = none)
    (hothers : ∀ j, (hj : j < cfg.wallets.length) → j ≠ i →
      ∃ b, task_success (task_of net jf (j, cfg.wallets[j])) = some b) :
    get_wallet_balances cfg net jf sched =
      some (.ok (inOrderSuccesses cfg net jf), inOrderWarnings cfg net jf) ∧
    (∀ j, (hj : j < cfg.wallets.length) → j ≠ i → ∀ b,
      task_success (task_of net jf (j, cfg.wallets[j])) = some b →
      b ∈ inOrderSuccesses cfg net jf) ∧
    (∃ s, inOrderWarnings cfg net jf = [s] ∧
      log_line cfg.wallets[i] (task_of net jf (i, cfg.wallets[i])) = some s ∧
      (cfg.wallets[i]).data <:+: s.data) ∧
    (inOrderSuccesses cfg net jf).length = cfg.wallets.length - 1 ∧
    (∀ (net' : String → HttpOutcome) (jf' : ℕ → Option String) (sched' : List ℕ),
      sched'.Perm (List.range cfg.wallets.length) →
      ∃ bs logs, get_wallet_balances cfg net' jf' sched' = some (.ok bs, logs)) := by
  obtain ⟨s, hs, hinf⟩ := log_line_of_fail (cfg.wallets[i]) _ hfail
  have hwarn : inOrderWarnings cfg net jf = [s] := by
    rw [inOrderWarnings, show List.enum cfg.wallets = cfg.wallets.enumFrom 0 from rfl]
    refine filterMap_enumFrom_single _ i s cfg.wallets 0 ?_ ?_ ?_
    · rintro ⟨a, x⟩ hp hne
      obtain ⟨-, hlt, hx⟩ := List.mem_enumFrom hp
      have ha : a < cfg.wallets.length := by simpa using hlt
      obtain ⟨b, hb⟩ := hothers a ha (by simpa using hne)
      refine (log_line_eq_none _ _).mpr ⟨b, ?_⟩
      rw [hx]
      simpa using hb
    · rintro ⟨a, x⟩ hp hei
      obtain ⟨-, hlt, hx⟩ := List.mem_enumFrom hp
      simp only at hei
      subst hei
      rw [hx]
      simpa using hs
    · rw [show cfg.wallets.enumFrom 0 = cfg.wallets.enum from rfl, List.enum_map_fst]
      exact List.mem_range.mpr hi
  have hsum : (inOrderSuccesses cfg net jf).length + (inOrderWarnings cfg net jf).length =
      cfg.wallets.length := by
    have h3 : process_results cfg.wallets (spawn_tasks cfg net jf) =
        (inOrderSuccesses cfg net jf, inOrderWarnings cfg net jf) :=
      process_results_enumFrom net jf cfg.wallets 0
    have h4 := process_results_lengths cfg.wallets (spawn_tasks cfg net jf)
      (by simp [spawn_tasks, List.enum_length])
    rw [h3] at h4
    simpa using h4
  refine ⟨get_wallet_balances_perm cfg net jf sched hsched, ?_, ⟨s, hwarn, hs, hinf⟩, ?_, ?_⟩
  · intro j hj hne b hb
    have hjl : j < cfg.wallets.enum.length := by simpa [List.enum_length] using hj
    have he : cfg.wallets.enum[j] = (j, cfg.wallets[j]) := List.getElem_enum _ _ hjl
    have hmem : (j, cfg.wallets[j]) ∈ cfg.wallets.enum := he ▸ List.getElem_mem hjl
    rw [inOrderSuccesses]
    exact List.mem_filterMap.mpr ⟨(j, cfg.wallets[j]), hmem, hb⟩
  · rw [hwarn] at hsum
    simp only [List.length_cons, List.length_nil] at hsum
    omega
  · intro net' jf' sched' hp
    exact ⟨_, _, get_wallet_balances_perm cfg net' jf' sched' hp⟩

/-- A well-formed successful response body, used as a concrete fixture. -/
def c2okJson : Json :=
  .obj [("jsonrpc", .str "2.0"),
        ("result", .obj [("value", .num 5), ("context", .obj [("slot", .num 1)])]),
        ("id", .num 1)]

/-- A network where wallet `w1` succeeds and every other wallet's POST
fails. -/
def c2net : String → HttpOutcome :=
  fun w => if w = "w1" then .body c2okJson else .sendFail "io"

/-- Closed instance of C2: of two wallets, `w2` fails at the transport
level; `w1`'s balance is still returned, one warning line names `w2`, and
the batch returns `Ok`. -/
theorem c2_witness :
    [0, 1].Perm (List.range (Config.mk "u" ["w1", "w2"]).wallets.length) ∧
    1 < (Config.mk "u" ["w1", "w2"]).wallets.length ∧
    task_success (task_of c2net (fun _ => none)
      (1, (Config.mk "u" ["w1", "w2"]).wallets[1])) = none ∧
    (∀ j, (hj : j < (Config.mk "u" ["w1", "w2"]).wallets.length) → j ≠ 1 →
      ∃ b, task_success (task_of c2net (fun _ => none)
        (j, (Config.mk "u" ["w1", "w2"]).wallets[j])) = some b) ∧
    (get_wallet_balances ⟨"u", ["w1", "w2"]⟩ c2net (fun _ => none) [0, 1] =
        some (.ok (inOrderSuccesses ⟨"u", ["w1", "w2"]⟩ c2net (fun _ => none)),
              inOrderWarnings ⟨"u", ["w1", "w2"]⟩ c2net (fun _ => none)) ∧
      (∀ j, (hj : j < (Config.mk "u" ["w1", "w2"]).wallets.length) → j ≠ 1 → ∀ b,
        task_success (task_of c2net (fun _ => none)
          (j, (Config.mk "u" ["w1", "w2"]).wallets[j])) = some b →
        b ∈ inOrderSuccesses ⟨"u", ["w1", "w2"]⟩ c2net (fun _ => none)) ∧
      (∃ s, inOrderWarnings ⟨"u", ["w1", "w2"]⟩ c2net (fun _ => none) = [s] ∧
        log_line ((Config.mk "u" ["w1", "w2"]).wallets[1])
          (task_of c2net (fun _ => none) (1, (Config.mk "u" ["w1", "w2"]).wallets[1])) =
          some s ∧
        ((Config.mk "u" ["w1", "w2"]).wallets[1]).data <:+: s.data) ∧
      (inOrderSuccesses ⟨"u", ["w1", "w2"]⟩ c2net (fun _ => none)).length =
        (Config.mk "u" ["w1", "w2"]).wallets.length - 1 ∧
      (∀ (net' : String → HttpOutcome) (jf' : ℕ → Option String) (sched' : List ℕ),
        sched'.Perm (List.range (Config.mk "u" ["w1", "w2"]).wallets.length) →
        ∃ bs logs, get_wallet_balances ⟨"u", ["w1", "w2"]⟩ net' jf' sched' =
          some (.ok bs, logs))) := by
  have hothers : ∀ j, (hj : j < (Config.mk "u" ["w1", "w2"]).wallets.length) → j ≠ 1 →
      ∃ b, task_success (task_of c2net (fun _ => none)
        (j, (Config.mk "u" ["w1", "w2"]).wallets[j])) = some b := by
    intro j hj hne
    match j, hj, hne with
    | 0, _, _ =>
      refine ⟨⟨"w1", F64.div (u64ToF64 5) lamportsPerSol⟩, ?_⟩
      show task_success (task_of c2net (fun _ => none) (0, "w1")) =
        some ⟨"w1", F64.div (u64ToF64 5) lamportsPerSol⟩
      decide
    | 1, _, hne => exact absurd rfl hne
    | n + 2, hj, _ => exact absurd hj (Nat.not_lt.mpr (Nat.le_add_left 2 n))
  refine ⟨by decide, by decide, by decide, hothers, ?_⟩
  exact c2_partial_failure_isolation ⟨"u", ["w1", "w2"]⟩ c2net (fun _ => none) [0, 1] 1
    (by decide) (by decide) (by decide) hothers

end RustWallet
